import Mathlib

/-!
Verification development for the Monetrax expense tracker.

The storage layer is embedded from `supabase/migrations/20250612204303_sunny_frost.sql`
(the latest migration: it drops and recreates every object, so it is the
authoritative schema).  The client data-access layer is embedded from
`src/hooks/useCategories.ts` and `src/hooks/useExpenses.ts`, and the
aggregation logic from `src/components/PieChart.tsx` and `src/App.tsx`.

Row ids (uuids in the source) are modelled as naturals, timestamps as
naturals, monetary amounts (`decimal(12,2)` / JS numbers) as rationals.
A SQL statement is one atomic step: it either returns the fully updated
database (`Except.ok`) or raises (`Except.error`), in which case the
transaction is aborted and no state change is observable.
-/

namespace Monetrax

/-- Row of `user_profiles` (migration lines 38-45). -/
structure UserProfile where
  id : Nat
  user_id : Nat
  currency_code : String
  currency : String
  created_at : Nat
deriving DecidableEq, Repr

/-- Row of `categories` (migration lines 48-57). -/
structure Category where
  id : Nat
  user_id : Nat
  name : String
  color : String
  icon : String
  is_default : Bool
  created_at : Nat
deriving DecidableEq, Repr

/-- Row of `expenses` (migration lines 60-70).  `amount` carries the
`CHECK (amount > 0)` constraint as a side condition in the theorems. -/
structure Expense where
  id : Nat
  user_id : Nat
  category_id : Nat
  amount : ℚ
  description : String
  date : String
deriving DecidableEq, Repr

/-- The whole database: the three tables of the schema. -/
structure DB where
  profiles : List UserProfile
  categories : List Category
  expenses : List Expense
deriving DecidableEq, Repr

/-- Errors a statement can raise: the trigger's
`RAISE EXCEPTION 'Cannot delete default category'`, a violation of the
partial unique index `categories_user_default_unique_idx`, and a
foreign-key violation. -/
inductive DbError where
  | protectedDefault
  | constraintViolation
  | fkViolation
  | rlsViolation
deriving DecidableEq, Repr

deriving instance DecidableEq for Except

/-- Does `u` already own a row with `is_default = true`?  This is the key
lookup of the partial unique index
`categories_user_default_unique_idx ON categories (user_id) WHERE is_default = true`. -/
def hasDefault (cats : List Category) (u : Nat) : Bool :=
  cats.any (fun c => c.user_id == u && c.is_default)

/-- `INSERT INTO categories` of a single row: the partial unique index
rejects a row flagged default when the owner already has a default. -/
def insertCategory (db : DB) (c : Category) : Except DbError DB :=
  if c.is_default && hasDefault db.categories c.user_id then
    .error .constraintViolation
  else
    .ok { db with categories := db.categories ++ [c] }

/-- A multi-row `INSERT INTO categories ... VALUES (...), (...), ...`.
The statement is atomic: if any row violates the index the whole insert
raises and nothing is stored. -/
def insertCategories (db : DB) : List Category → Except DbError DB
  | [] => .ok db
  | c :: rest =>
    match insertCategory db c with
    | .error e => .error e
    | .ok db1 => insertCategories db1 rest

/-- No owner has two rows with `is_default = true`: the state invariant
maintained by the partial unique index. -/
def noTwoDefaults : List Category → Bool
  | [] => true
  | c :: rest => (!(c.is_default && hasDefault rest c.user_id)) && noTwoDefaults rest

/-- An `UPDATE categories SET ... WHERE id = cid` at the SQL level
(`f` is the row transformation the SET list denotes).  The partial unique
index is re-checked on the updated table; a statement whose result would
hold two defaults for one owner raises a constraint violation. -/
def updateCategorySQL (db : DB) (cid : Nat) (f : Category → Category) : Except DbError DB :=
  if noTwoDefaults (db.categories.map (fun c => if c.id == cid then f c else c)) then
    .ok { db with categories := db.categories.map (fun c => if c.id == cid then f c else c) }
  else
    .error .constraintViolation

/-- Row of `categories` with the given id, if any. -/
def findCategory (db : DB) (cid : Nat) : Option Category :=
  db.categories.find? (fun c => c.id == cid)

/-- `SELECT id FROM categories WHERE user_id = u AND is_default = true LIMIT 1`
(trigger body, migration lines 175-178). -/
def findDefaultId (cats : List Category) (u : Nat) : Option Nat :=
  (cats.find? (fun c => c.user_id == u && c.is_default)).map (fun c => c.id)

/-- The trigger's `UPDATE expenses SET category_id = d WHERE category_id = oldId`
applied to a single row. -/
def repoint (oldId d : Nat) (e : Expense) : Expense :=
  if e.category_id == oldId then { e with category_id := d } else e

/-- Body of the `handle_category_deletion` trigger function (migration
lines 164-189) run for the row `old` about to be deleted: raise on a
default category, otherwise repoint the expenses of the deleted category
at the owner's default category when one exists. -/
def handle_category_deletion (db : DB) (old : Category) : Except DbError DB :=
  if old.is_default then
    .error .protectedDefault
  else
    match findDefaultId db.categories old.user_id with
    | some d => .ok { db with expenses := db.expenses.map (repoint old.id d) }
    | none => .ok db

/-- Deleting the matched row `old`: the BEFORE DELETE trigger runs first;
then the row is removed and the `ON DELETE CASCADE` clause of
`fk_expenses_category_id` (migration line 69) removes every expense still
referencing the deleted row. -/
def deleteFoundCategory (db : DB) (old : Category) : Except DbError DB :=
  match handle_category_deletion db old with
  | .error e => .error e
  | .ok db1 =>
      .ok { db1 with
            categories := db1.categories.filter (fun c => c.id != old.id),
            expenses := db1.expenses.filter (fun e => e.category_id != old.id) }

/-- `DELETE FROM categories WHERE id = cid` issued without row-level
security (e.g. in definer context): the statement reaches the row whenever
it exists.  Zero matched rows is a successful no-op. -/
def deleteCategoryRaw (db : DB) (cid : Nat) : Except DbError DB :=
  match findCategory db cid with
  | none => .ok db
  | some old => deleteFoundCategory db old

/-- `categories_delete_policy` (migration lines 117-121):
`USING (auth.uid() = user_id AND (is_default = false OR is_default IS NULL))`. -/
def categories_delete_policy (auth : Nat) (c : Category) : Bool :=
  auth == c.user_id && c.is_default == false

/-- The client's `deleteCategory` (useCategories.ts lines 114-130):
`DELETE FROM categories WHERE id = cid AND user_id = auth` issued as the
authenticated user.  Row-level security filters the matched set through
`categories_delete_policy`; a row filtered out is simply not deleted (no
error).  A matched row goes through the trigger and cascade. -/
def deleteCategoryAsUser (db : DB) (auth : Nat) (cid : Nat) : Except DbError DB :=
  match db.categories.find?
      (fun c => c.id == cid && c.user_id == auth && categories_delete_policy auth c) with
  | none => .ok db
  | some old => deleteFoundCategory db old

/-- All category ids distinct (each `id` is a generated uuid primary key). -/
def uniqueIds : List Category → Bool
  | [] => true
  | c :: rest => rest.all (fun c2 => c2.id != c.id) && uniqueIds rest

/-- Referential integrity of `fk_expenses_category_id`: every expense
references an existing category row. -/
def refIntegrity (db : DB) : Bool :=
  db.expenses.all (fun e => db.categories.any (fun c => c.id == e.category_id))

/-! Helper lemmas about the default-uniqueness invariant. -/

theorem hasDefault_of_filter {l : List Category} {p : Category → Bool} {u : Nat}
    (h : hasDefault (l.filter p) u = true) : hasDefault l u = true := by
  simp only [hasDefault, List.any_eq_true] at h ⊢
  obtain ⟨c, hc, hcu⟩ := h
  exact ⟨c, (List.mem_filter.mp hc).1, hcu⟩

theorem noTwoDefaults_filter {l : List Category} {p : Category → Bool}
    (h : noTwoDefaults l = true) : noTwoDefaults (l.filter p) = true := by
  induction l with
  | nil => simp [noTwoDefaults]
  | cons c rest ih =>
    simp only [noTwoDefaults, Bool.and_eq_true] at h
    obtain ⟨h1, h2⟩ := h
    by_cases hp : p c = true
    · rw [List.filter_cons_of_pos hp]
      simp only [noTwoDefaults, Bool.and_eq_true]
      refine ⟨?_, ih h2⟩
      cases hd : c.is_default && hasDefault (rest.filter p) c.user_id
      · rfl
      · rw [Bool.and_eq_true] at hd
        have := hasDefault_of_filter hd.2
        simp [hd.1, this] at h1
    · rw [List.filter_cons_of_neg hp]
      exact ih h2

theorem noTwoDefaults_append {l : List Category} {c : Category}
    (h : noTwoDefaults l = true)
    (hc : (c.is_default && hasDefault l c.user_id) = false) :
    noTwoDefaults (l ++ [c]) = true := by
  induction l with
  | nil => simp [noTwoDefaults, hasDefault]
  | cons a rest ih =>
    simp only [noTwoDefaults, Bool.and_eq_true] at h
    obtain ⟨h1, h2⟩ := h
    have hc' : (c.is_default && hasDefault rest c.user_id) = false := by
      cases hcd : c.is_default
      · simp [hcd]
      · cases hcr : hasDefault rest c.user_id
        · simp
        · exfalso
          have : hasDefault (a :: rest) c.user_id = true := by
            simp only [hasDefault, List.any_cons, Bool.or_eq_true]
            exact Or.inr (by simpa [hasDefault] using hcr)
          simp [hcd, this] at hc
    simp only [List.cons_append, noTwoDefaults, Bool.and_eq_true]
    refine ⟨?_, ih h2 hc'⟩
    cases had : a.is_default
    · simp
    · have hr : hasDefault rest a.user_id = false := by
        cases hx : hasDefault rest a.user_id
        · rfl
        · simp [had, hx] at h1
      have hca : (c.user_id == a.user_id && c.is_default) = false := by
        cases hcd : c.is_default
        · simp
        · cases hcu : c.user_id == a.user_id
          · simp
          · exfalso
            have hcu' : c.user_id = a.user_id := by simpa using hcu
            have : hasDefault (a :: rest) c.user_id = true := by
              simp only [hasDefault, List.any_cons, Bool.or_eq_true]
              exact Or.inl (by simp [had, hcu'])
            simp [hcd, this] at hc
      simp only [hasDefault, List.any_append, List.any_cons, List.any_nil]
      simp only [hasDefault] at hr
      simp [hr, hca]

theorem handle_category_deletion_ok_categories {db : DB} {old : Category} {dbm : DB}
    (h : handle_category_deletion db old = Except.ok dbm) :
    dbm.categories = db.categories := by
  unfold handle_category_deletion at h
  split at h
  · exact absurd h (by simp)
  · split at h
    · simp only [Except.ok.injEq] at h
      rw [← h]
    · simp only [Except.ok.injEq] at h
      rw [← h]

theorem deleteFoundCategory_eq_of_trigger_ok {db : DB} {old : Category} {dbm : DB}
    (h : handle_category_deletion db old = Except.ok dbm) :
    deleteFoundCategory db old = Except.ok { dbm with
      categories := dbm.categories.filter (fun c => c.id != old.id),
      expenses := dbm.expenses.filter (fun e => e.category_id != old.id) } := by
  unfold deleteFoundCategory
  rw [h]

theorem deleteFoundCategory_ok_categories {db : DB} {old : Category} {db1 : DB}
    (h : deleteFoundCategory db old = Except.ok db1) :
    db1.categories = db.categories.filter (fun c => c.id != old.id) := by
  unfold deleteFoundCategory at h
  cases htr : handle_category_deletion db old with
  | error e => rw [htr] at h; exact absurd h (by simp)
  | ok dbm =>
    rw [htr] at h
    simp only [Except.ok.injEq] at h
    rw [← h, handle_category_deletion_ok_categories htr]

theorem uniqueIds_mem_eq {l : List Category} (hu : uniqueIds l = true)
    {c1 c2 : Category} (h1 : c1 ∈ l) (h2 : c2 ∈ l) (hid : c1.id = c2.id) : c1 = c2 := by
  induction l with
  | nil => cases h1
  | cons a rest ih =>
    simp only [uniqueIds, Bool.and_eq_true, List.all_eq_true] at hu
    obtain ⟨ha, hrest⟩ := hu
    rcases List.mem_cons.mp h1 with e1 | m1 <;> rcases List.mem_cons.mp h2 with e2 | m2
    · rw [e1, e2]
    · exfalso
      have hne := ha c2 m2
      rw [e1] at hid
      rw [hid] at hne
      simp at hne
    · exfalso
      have hne := ha c1 m1
      rw [e2] at hid
      rw [← hid] at hne
      simp at hne
    · exact ih hrest m1 m2

theorem find?_eq_of_mem_unique {l : List Category} {p : Category → Bool} {c : Category}
    (hmem : c ∈ l) (hp : p c = true)
    (huniq : ∀ x ∈ l, p x = true → x = c) : l.find? p = some c := by
  induction l with
  | nil => cases hmem
  | cons a rest ih =>
    by_cases hpa : p a = true
    · have hac : a = c := huniq a (List.mem_cons_self a rest) hpa
      rw [List.find?_cons_of_pos _ hpa, hac]
    · rw [List.find?_cons_of_neg _ hpa]
      rcases List.mem_cons.mp hmem with h | h
      · exact absurd (h ▸ hp) hpa
      · exact ih h (fun x hx hpx => huniq x (List.mem_cons_of_mem _ hx) hpx)

/-! Claim C1. -/

/-- A database whose single category is user 1's default, and a second
default-flagged category for the same user. -/
def dbC1 : DB := ⟨[], [⟨1, 1, "General", "#6B7280", "folder", true, 0⟩], []⟩

def catC1 : Category := ⟨2, 1, "Another", "#FFFFFF", "folder", true, 0⟩

/-- C1 counterexample: inserting a first, non-default category for a fresh
owner succeeds with no constraint error and yields a state in which that
owner has one category and no category with `is_default = true` — so
"exactly one of its categories has is_default = true" does not hold after
this legal mutation; the index only enforces "at most one". -/
theorem c1_counterexample :
    insertCategory (DB.mk [] [] []) (Category.mk 1 1 "Misc" "#FFFFFF" "folder" false 0)
        = Except.ok (DB.mk [] [Category.mk 1 1 "Misc" "#FFFFFF" "folder" false 0] []) ∧
    ((DB.mk [] [Category.mk 1 1 "Misc" "#FFFFFF" "folder" false 0] []).categories.filter
        (fun c => c.user_id == 1)).length = 1 ∧
    hasDefault (DB.mk [] [Category.mk 1 1 "Misc" "#FFFFFF" "folder" false 0] []).categories 1
        = false := by
  exact ⟨rfl, rfl, rfl⟩

/-- C1 (amended): every owner has at most one category with
`is_default = true`.  An insert of a second default for the same owner
fails with a constraint violation, an update whose result would hold two
defaults for one owner fails with a constraint violation, and the
at-most-one-default invariant is preserved by category insert, update and
delete (both the direct delete and the client delete through row-level
security). -/
theorem c1_at_most_one_default (db : DB) (c : Category) (cid : Nat)
    (f : Category → Category)
    (hinv : noTwoDefaults db.categories = true) :
    (c.is_default = true → hasDefault db.categories c.user_id = true →
      insertCategory db c = Except.error DbError.constraintViolation) ∧
    (∀ db1, insertCategory db c = Except.ok db1 → noTwoDefaults db1.categories = true) ∧
    (noTwoDefaults (db.categories.map (fun x => if x.id == cid then f x else x)) = false →
      updateCategorySQL db cid f = Except.error DbError.constraintViolation) ∧
    (∀ db1, updateCategorySQL db cid f = Except.ok db1 → noTwoDefaults db1.categories = true) ∧
    (∀ db1, deleteCategoryRaw db cid = Except.ok db1 → noTwoDefaults db1.categories = true) ∧
    (∀ auth db1, deleteCategoryAsUser db auth cid = Except.ok db1 →
      noTwoDefaults db1.categories = true) := by
  refine ⟨?_, ?_, ?_, ?_, ?_, ?_⟩
  · intro hd hh
    simp [insertCategory, hd, hh]
  · intro db1 h
    unfold insertCategory at h
    split at h
    · exact absurd h (by simp)
    · simp only [Except.ok.injEq] at h
      rw [← h]
      rename_i hcond
      exact noTwoDefaults_append hinv (by simpa using hcond)
  · intro hbad
    unfold updateCategorySQL
    rw [hbad]
    simp
  · intro db1 h
    unfold updateCategorySQL at h
    split at h
    · simp only [Except.ok.injEq] at h
      rw [← h]
      assumption
    · exact absurd h (by simp)
  · intro db1 h
    unfold deleteCategoryRaw at h
    cases hf : findCategory db cid with
    | none =>
        rw [hf] at h
        simp only [Except.ok.injEq] at h
        rw [← h]
        exact hinv
    | some old =>
        rw [hf] at h
        rw [deleteFoundCategory_ok_categories h]
        exact noTwoDefaults_filter hinv
  · intro auth db1 h
    unfold deleteCategoryAsUser at h
    cases hf : db.categories.find?
        (fun x => x.id == cid && x.user_id == auth && categories_delete_policy auth x) with
    | none =>
        rw [hf] at h
        simp only [Except.ok.injEq] at h
        rw [← h]
        exact hinv
    | some old =>
        rw [hf] at h
        rw [deleteFoundCategory_ok_categories h]
        exact noTwoDefaults_filter hinv

/-- C1 witness: in a state where user 1 already owns a default category,
inserting a second default for user 1 is rejected with a constraint
violation. -/
theorem c1_witness :
    noTwoDefaults dbC1.categories = true ∧
    catC1.is_default = true ∧
    insertCategory dbC1 catC1 = Except.error DbError.constraintViolation :=
  ⟨by decide, by decide,
    (c1_at_most_one_default dbC1 catC1 0 (fun x => x) (by decide)).1 (by decide) (by decide)⟩

/-! Claim C2. -/

theorem handle_category_deletion_default {db : DB} {c : Category} {d : Nat}
    (hnd : c.is_default = false)
    (hdef : findDefaultId db.categories c.user_id = some d) :
    handle_category_deletion db c =
      Except.ok { db with expenses := db.expenses.map (repoint c.id d) } := by
  unfold handle_category_deletion
  rw [hnd, hdef]
  simp

/-- C2: for a non-default category `c` of an owner whose default category
lookup returns `d`, the delete (both the direct statement and the client's
delete through row-level security) removes `c` from storage, repoints
every expense that referenced `c` at `d`, leaves every other expense and
the total expense count unchanged, and the default category is still
stored and still marked default. -/
theorem c2_delete_reassigns_expenses (db : DB) (cid d : Nat) (c : Category)
    (hu : uniqueIds db.categories = true)
    (hfind : findCategory db cid = some c)
    (hnd : c.is_default = false)
    (hdef : findDefaultId db.categories c.user_id = some d) :
    ∃ db1,
      deleteCategoryRaw db cid = Except.ok db1 ∧
      deleteCategoryAsUser db c.user_id cid = Except.ok db1 ∧
      findCategory db1 cid = none ∧
      db1.expenses.length = db.expenses.length ∧
      (∀ e ∈ db.expenses, e.category_id = cid → { e with category_id := d } ∈ db1.expenses) ∧
      (∀ e ∈ db.expenses, e.category_id ≠ cid → e ∈ db1.expenses) ∧
      (∃ cd ∈ db1.categories, cd.id = d ∧ cd.is_default = true) := by
  have hc_mem : c ∈ db.categories := List.mem_of_find?_eq_some hfind
  have hc_id : c.id = cid := by simpa using List.find?_some hfind
  subst hc_id
  have hdef' := hdef
  unfold findDefaultId at hdef'
  rw [Option.map_eq_some'] at hdef'
  obtain ⟨cd, hcd_find, hcd_id⟩ := hdef'
  have hcd_mem : cd ∈ db.categories := List.mem_of_find?_eq_some hcd_find
  have hcd_p := List.find?_some hcd_find
  simp only [Bool.and_eq_true] at hcd_p
  have hcd_def : cd.is_default = true := hcd_p.2
  have hdne : d ≠ c.id := by
    intro he
    have hcdc : cd = c := uniqueIds_mem_eq hu hcd_mem hc_mem (by rw [hcd_id, he])
    rw [hcdc] at hcd_def
    simp [hnd] at hcd_def
  have htr : handle_category_deletion db c =
      Except.ok { db with expenses := db.expenses.map (repoint c.id d) } :=
    handle_category_deletion_default hnd hdef
  have hfilter : (db.expenses.map (repoint c.id d)).filter (fun e => e.category_id != c.id)
      = db.expenses.map (repoint c.id d) := by
    apply List.filter_eq_self.mpr
    intro e' he'
    obtain ⟨e, _, rfl⟩ := List.mem_map.mp he'
    unfold repoint
    by_cases hcat : (e.category_id == c.id) = true
    · rw [if_pos hcat]
      simpa using hdne
    · rw [if_neg hcat]
      simpa using hcat
  have hraw : deleteCategoryRaw db c.id =
      Except.ok { db with
        categories := db.categories.filter (fun x => x.id != c.id),
        expenses := db.expenses.map (repoint c.id d) } := by
    have h1 : deleteCategoryRaw db c.id = deleteFoundCategory db c := by
      unfold deleteCategoryRaw
      rw [hfind]
    rw [h1, deleteFoundCategory_eq_of_trigger_ok htr]
    simp only [hfilter]
  refine ⟨_, hraw, ?_, ?_, ?_, ?_, ?_, ?_⟩
  · have hfind2 : db.categories.find? (fun x => x.id == c.id && x.user_id == c.user_id &&
        categories_delete_policy c.user_id x) = some c := by
      apply find?_eq_of_mem_unique hc_mem
      · simp [categories_delete_policy, hnd]
      · intro x hx hpx
        have hxid : (x.id == c.id) = true := by
          simp only [Bool.and_eq_true] at hpx
          tauto
        exact uniqueIds_mem_eq hu hx hc_mem (by simpa using hxid)
    have h1 : deleteCategoryAsUser db c.user_id c.id = deleteFoundCategory db c := by
      unfold deleteCategoryAsUser
      rw [hfind2]
    rw [h1, deleteFoundCategory_eq_of_trigger_ok htr]
    simp only [hfilter]
  · unfold findCategory
    apply List.find?_eq_none.mpr
    intro x hx
    have hne := (List.mem_filter.mp hx).2
    simp only [bne_iff_ne] at hne
    simpa using hne
  · simp
  · intro e he hecat
    have hre : repoint c.id d e = { e with category_id := d } := by
      unfold repoint
      rw [if_pos (by simpa using hecat)]
    rw [← hre]
    exact List.mem_map_of_mem _ he
  · intro e he hecat
    have hre : repoint c.id d e = e := by
      unfold repoint
      rw [if_neg (by simpa using hecat)]
    rw [← hre]
    exact List.mem_map_of_mem _ he
  · refine ⟨cd, ?_, hcd_id, hcd_def⟩
    apply List.mem_filter.mpr
    refine ⟨hcd_mem, ?_⟩
    simp only [bne_iff_ne]
    rw [hcd_id]
    exact hdne

/-- The spec's worked scenario: user 1 has General (default) and Food,
and one expense of $12.50 pointing at Food. -/
def genC2 : Category := ⟨1, 1, "General", "#6B7280", "folder", true, 0⟩

def foodC2 : Category := ⟨2, 1, "Food", "#EF4444", "utensils", false, 1⟩

def expC2 : Expense := ⟨10, 1, 2, 25/2, "lunch", "2024-03-05"⟩

def dbC2 : DB := ⟨[], [genC2, foodC2], [expC2]⟩

/-- C2 witness: deleting Food in the worked scenario removes Food,
repoints the expense at General, keeps the expense count, and General is
still the stored default. -/
theorem c2_witness :
    uniqueIds dbC2.categories = true ∧
    (∃ db1, deleteCategoryRaw dbC2 2 = Except.ok db1 ∧
      deleteCategoryAsUser dbC2 foodC2.user_id 2 = Except.ok db1 ∧
      findCategory db1 2 = none ∧
      db1.expenses.length = dbC2.expenses.length ∧
      (∀ e ∈ dbC2.expenses, e.category_id = 2 → { e with category_id := 1 } ∈ db1.expenses) ∧
      (∀ e ∈ dbC2.expenses, e.category_id ≠ 2 → e ∈ db1.expenses) ∧
      (∃ cd ∈ db1.categories, cd.id = 1 ∧ cd.is_default = true)) :=
  ⟨by decide,
    c2_delete_reassigns_expenses dbC2 2 1 foodC2 (by decide) (by decide) (by decide) (by decide)⟩

/-! Claims C3, C4, C5: the deletion paths. -/

theorem find?_id_eq_none (l : List Category) (i : Nat) :
    (l.filter (fun x => x.id != i)).find? (fun x => x.id == i) = none := by
  apply List.find?_eq_none.mpr
  intro x hx
  have hne := (List.mem_filter.mp hx).2
  simpa using hne

theorem handle_category_deletion_ok_cases {db : DB} {c : Category} {dbm : DB}
    (h : handle_category_deletion db c = Except.ok dbm) :
    dbm.categories = db.categories ∧
    (dbm.expenses = db.expenses ∨
      ∃ cd, db.categories.find? (fun x => x.user_id == c.user_id && x.is_default) = some cd ∧
        dbm.expenses = db.expenses.map (repoint c.id cd.id)) := by
  unfold handle_category_deletion at h
  split at h
  · exact absurd h (by simp)
  · cases hfd : findDefaultId db.categories c.user_id with
    | none =>
        rw [hfd] at h
        simp only [Except.ok.injEq] at h
        rw [← h]
        exact ⟨rfl, Or.inl rfl⟩
    | some d =>
        rw [hfd] at h
        simp only [Except.ok.injEq] at h
        unfold findDefaultId at hfd
        rw [Option.map_eq_some'] at hfd
        obtain ⟨cd, hcdf, hcdid⟩ := hfd
        rw [← h]
        refine ⟨rfl, Or.inr ⟨cd, hcdf, ?_⟩⟩
        rw [hcdid]

/-- C3 counterexample: user 1 attempts to delete their own default
category through the client path (row-level security in force).  The
delete policy filters the row out, so the statement matches zero rows and
returns success with the database unchanged — no protected-default error
is signalled, contradicting the claim that the attempt "fails with the
protected-default domain error". -/
theorem c3_counterexample :
    deleteCategoryAsUser dbC1 1 1 = Except.ok dbC1 ∧
    deleteCategoryAsUser dbC1 1 1 ≠ Except.error DbError.protectedDefault := by
  exact ⟨by decide, by decide⟩

/-- C3 (amended): attempting to delete a category with
`is_default = true` never changes stored data.  A delete statement that
reaches the row (issued without row-level security, e.g. in definer
context) is aborted by the trigger with the protected-default error — and
an aborted statement leaves no state change.  The client delete, issued as
any authenticated user, is filtered by the delete policy, matches zero
rows and returns the database unchanged without an error. -/
theorem c3_default_delete_protected (db : DB) (cid : Nat) (c : Category) (auth : Nat)
    (hu : uniqueIds db.categories = true)
    (hfind : findCategory db cid = some c)
    (hd : c.is_default = true) :
    deleteCategoryRaw db cid = Except.error DbError.protectedDefault ∧
    deleteCategoryAsUser db auth cid = Except.ok db := by
  have hc_mem : c ∈ db.categories := List.mem_of_find?_eq_some hfind
  have hc_id : c.id = cid := by simpa using List.find?_some hfind
  subst hc_id
  constructor
  · have h1 : deleteCategoryRaw db c.id = deleteFoundCategory db c := by
      unfold deleteCategoryRaw
      rw [hfind]
    rw [h1]
    unfold deleteFoundCategory handle_category_deletion
    rw [hd]
    simp
  · have hnone : db.categories.find? (fun x => x.id == c.id && x.user_id == auth &&
        categories_delete_policy auth x) = none := by
      apply List.find?_eq_none.mpr
      intro x hx hpx
      have hxid : (x.id == c.id) = true := by
        simp only [Bool.and_eq_true] at hpx
        tauto
      have hpol : categories_delete_policy auth x = true := by
        simp only [Bool.and_eq_true] at hpx
        tauto
      have hxc : x = c := uniqueIds_mem_eq hu hx hc_mem (by simpa using hxid)
      rw [hxc] at hpol
      simp [categories_delete_policy, hd] at hpol
    unfold deleteCategoryAsUser
    rw [hnone]

/-- C3 witness: user 1's default category (id 1) in `dbC1`: the direct
delete raises the protected-default error and the client delete returns
the unchanged database. -/
theorem c3_witness :
    uniqueIds dbC1.categories = true ∧
    deleteCategoryRaw dbC1 1 = Except.error DbError.protectedDefault ∧
    deleteCategoryAsUser dbC1 7 1 = Except.ok dbC1 :=
  ⟨by decide,
    (c3_default_delete_protected dbC1 1 ⟨1, 1, "General", "#6B7280", "folder", true, 0⟩ 7
      (by decide) (by decide) (by decide)).1,
    (c3_default_delete_protected dbC1 1 ⟨1, 1, "General", "#6B7280", "folder", true, 0⟩ 7
      (by decide) (by decide) (by decide)).2⟩

/-- C4: the category-deletion statement is all-or-nothing.  A raised
error aborts the statement with no state change (an `Except.error` result
carries no database), and a successful result is either the unchanged
database (zero rows matched) or the fully applied one: the category gone
and no expense referencing it.  No intermediate state exists, and
referential integrity of the expense-to-category reference is preserved. -/
theorem c4_delete_all_or_nothing (db : DB) (cid : Nat) (db1 : DB)
    (h : deleteCategoryRaw db cid = Except.ok db1) :
    (db1 = db ∨
      (findCategory db1 cid = none ∧
        db1.expenses.all (fun e => e.category_id != cid) = true)) ∧
    (refIntegrity db = true → refIntegrity db1 = true) := by
  unfold deleteCategoryRaw at h
  cases hf : findCategory db cid with
  | none =>
      rw [hf] at h
      simp only [Except.ok.injEq] at h
      rw [← h]
      exact ⟨Or.inl rfl, fun hri => hri⟩
  | some c =>
      rw [hf] at h
      have h' : deleteFoundCategory db c = Except.ok db1 := h
      have hc_id : c.id = cid := by simpa using List.find?_some hf
      subst hc_id
      cases htr : handle_category_deletion db c with
      | error e =>
          rw [deleteFoundCategory] at h'
          rw [htr] at h'
          exact absurd h' (by simp)
      | ok dbm =>
          rw [deleteFoundCategory_eq_of_trigger_ok htr] at h'
          simp only [Except.ok.injEq] at h'
          obtain ⟨hcats, hexps⟩ := handle_category_deletion_ok_cases htr
          constructor
          · refine Or.inr ⟨?_, ?_⟩
            · rw [← h']
              unfold findCategory
              exact find?_id_eq_none dbm.categories c.id
            · rw [← h']
              rw [List.all_eq_true]
              intro e he
              exact (List.mem_filter.mp he).2
          · intro hri
            rw [← h']
            rw [refIntegrity, List.all_eq_true]
            intro e1 he1
            have hmem := List.mem_filter.mp he1
            have hene : e1.category_id ≠ c.id := by simpa using hmem.2
            rw [List.any_eq_true]
            rw [refIntegrity, List.all_eq_true] at hri
            rcases hexps with hsame | ⟨cd, hcdf, hmap⟩
            · have he1db : e1 ∈ db.expenses := by
                rw [← hsame]
                exact hmem.1
              have hany := hri e1 he1db
              rw [List.any_eq_true] at hany
              obtain ⟨x, hx, hxe⟩ := hany
              refine ⟨x, ?_, hxe⟩
              apply List.mem_filter.mpr
              refine ⟨by rw [hcats]; exact hx, ?_⟩
              have hxid : x.id = e1.category_id := by simpa using hxe
              simp [hxid, hene]
            · have he1m : e1 ∈ db.expenses.map (repoint c.id cd.id) := by
                rw [← hmap]
                exact hmem.1
              obtain ⟨e0, he0, he0eq⟩ := List.mem_map.mp he1m
              by_cases hc0 : (e0.category_id == c.id) = true
              · have he1cd : e1.category_id = cd.id := by
                  rw [← he0eq]
                  unfold repoint
                  rw [if_pos hc0]
                refine ⟨cd, ?_, by simp [he1cd]⟩
                apply List.mem_filter.mpr
                refine ⟨by rw [hcats]; exact List.mem_of_find?_eq_some hcdf, ?_⟩
                rw [← he1cd]
                simpa using hene
              · have he1e0 : e1 = e0 := by
                  rw [← he0eq]
                  unfold repoint
                  rw [if_neg hc0]
                have hany := hri e0 he0
                rw [List.any_eq_true] at hany
                obtain ⟨x, hx, hxe⟩ := hany
                refine ⟨x, ?_, by rw [he1e0]; exact hxe⟩
                apply List.mem_filter.mpr
                refine ⟨by rw [hcats]; exact hx, ?_⟩
                have hxid : x.id = e0.category_id := by simpa using hxe
                rw [he1e0] at hene
                simp [hxid, hene]

/-- C4 witness: the deletion of Food in the worked scenario returns the
fully applied state and preserves referential integrity. -/
theorem c4_witness :
    deleteCategoryRaw dbC2 2 = Except.ok (DB.mk [] [genC2] [{ expC2 with category_id := 1 }]) ∧
    ((DB.mk [] [genC2] [{ expC2 with category_id := 1 }] = dbC2) ∨
      (findCategory (DB.mk [] [genC2] [{ expC2 with category_id := 1 }]) 2 = none ∧
        (DB.mk [] [genC2] [{ expC2 with category_id := 1 }]).expenses.all
          (fun e => e.category_id != 2) = true)) ∧
    (refIntegrity dbC2 = true →
      refIntegrity (DB.mk [] [genC2] [{ expC2 with category_id := 1 }]) = true) := by
  refine ⟨by rfl, ?_, ?_⟩
  · exact (c4_delete_all_or_nothing dbC2 2 _ (by rfl)).1
  · exact (c4_delete_all_or_nothing dbC2 2 _ (by rfl)).2

/-! Claim C5. -/

def foodC5 : Category := ⟨2, 1, "Food", "#EF4444", "utensils", false, 0⟩

def expC5 : Expense := ⟨10, 1, 2, 5, "snack", "2024-03-05"⟩

/-- A data-integrity anomaly: user 1 owns a single non-default category
and one expense pointing at it, and no default category exists. -/
def dbC5 : DB := ⟨[], [foodC5], [expC5]⟩

/-- C5 counterexample: deleting the category when the owner has no default
proceeds, but the expense that referenced it is removed by the
`ON DELETE CASCADE` clause of `fk_expenses_category_id` — it is not left
pointing at the deleted category as the claim states. -/
theorem c5_counterexample :
    deleteCategoryRaw dbC5 2 = Except.ok (DB.mk [] [] []) ∧
    dbC5.expenses.length = 1 ∧
    (DB.mk [] [] [] : DB).expenses.length = 0 := by
  exact ⟨by decide, by decide, by decide⟩

/-- C5 (amended): if the owner of a non-default category being deleted has
no category with `is_default = true`, the deletion still proceeds and the
trigger reassigns nothing; when the category row is removed, the
`ON DELETE CASCADE` foreign key deletes every expense that referenced the
deleted category and leaves all other expenses unchanged. -/
theorem c5_delete_without_default (db : DB) (cid : Nat) (c : Category)
    (hfind : findCategory db cid = some c)
    (hnd : c.is_default = false)
    (hdef : findDefaultId db.categories c.user_id = none) :
    deleteCategoryRaw db cid = Except.ok { db with
      categories := db.categories.filter (fun x => x.id != cid),
      expenses := db.expenses.filter (fun e => e.category_id != cid) } := by
  have hc_id : c.id = cid := by simpa using List.find?_some hfind
  subst hc_id
  have htr : handle_category_deletion db c = Except.ok db := by
    unfold handle_category_deletion
    rw [hnd, hdef]
    simp
  have h1 : deleteCategoryRaw db c.id = deleteFoundCategory db c := by
    unfold deleteCategoryRaw
    rw [hfind]
  rw [h1, deleteFoundCategory_eq_of_trigger_ok htr]

/-- C5 witness: the amended behaviour on the concrete anomaly state. -/
theorem c5_witness :
    findCategory dbC5 2 = some foodC5 ∧
    findDefaultId dbC5.categories foodC5.user_id = none ∧
    deleteCategoryRaw dbC5 2 = Except.ok { dbC5 with
      categories := dbC5.categories.filter (fun x => x.id != 2),
      expenses := dbC5.expenses.filter (fun e => e.category_id != 2) } :=
  ⟨by decide, by decide,
    c5_delete_without_default dbC5 2 foodC5 (by decide) (by decide) (by decide)⟩

/-! Claims C6 and C7: new-identity provisioning
(migration lines 198-253). -/

/-- The eight starter categories of `create_default_categories_for_user`
(migration lines 201-209); `base`..`base+7` stand for the generated
uuids. -/
def starterCategories (u base : Nat) : List Category :=
  [⟨base, u, "General", "#6B7280", "folder", true, 0⟩,
   ⟨base+1, u, "Food & Dining", "#EF4444", "utensils", false, 0⟩,
   ⟨base+2, u, "Transportation", "#3B82F6", "car", false, 0⟩,
   ⟨base+3, u, "Shopping", "#8B5CF6", "shopping-bag", false, 0⟩,
   ⟨base+4, u, "Entertainment", "#10B981", "gamepad-2", false, 0⟩,
   ⟨base+5, u, "Bills & Utilities", "#F59E0B", "home", false, 0⟩,
   ⟨base+6, u, "Healthcare", "#EC4899", "heart", false, 0⟩,
   ⟨base+7, u, "Education", "#14B8A6", "book", false, 0⟩]

/-- The batch `INSERT` statement inside
`create_default_categories_for_user`, before its exception handler. -/
def create_default_categories_body (db : DB) (u base : Nat) : Except DbError DB :=
  insertCategories db (starterCategories u base)

/-- `create_default_categories_for_user` (migration lines 198-215): the
batch insert with its `EXCEPTION WHEN OTHERS` handler — an error is
turned into a warning (the returned boolean) and the statement's changes
are rolled back. -/
def create_default_categories_for_user (db : DB) (u base : Nat) : DB × Bool :=
  match create_default_categories_body db u base with
  | .ok db1 => (db1, false)
  | .error _ => (db, true)

/-- `create_default_user_profile` (migration lines 218-229):
`INSERT ... ON CONFLICT (user_id) DO NOTHING` with defaults
`currency_code = 'USD'`, `currency = '$'`. -/
def create_default_user_profile (db : DB) (u pid : Nat) : DB × Bool :=
  if db.profiles.any (fun p => p.user_id == u) then (db, false)
  else ({ db with profiles := db.profiles ++ [⟨pid, u, "USD", "$", 0⟩] }, false)

/-- The body of `handle_new_user`: provision the profile, then the
starter categories; each step returns its warning flag. -/
def handle_new_user_body (db : DB) (u pid base : Nat) : Except DbError (DB × Bool × Bool) :=
  let r1 := create_default_user_profile db u pid
  let r2 := create_default_categories_for_user r1.1 u base
  .ok (r2.1, r1.2, r2.2)

/-- `handle_new_user` (migration lines 232-248): the body wrapped in the
outer `EXCEPTION WHEN OTHERS` handler, which warns and still returns
`NEW` (success, with the state it received) on any escaping error. -/
def handle_new_user (db : DB) (u pid base : Nat) : Except DbError (DB × Bool × Bool) :=
  match handle_new_user_body db u pid base with
  | .ok r => .ok r
  | .error _ => .ok (db, false, false)

theorem insertCategories_starter {dbx : DB} {u base : Nat}
    (h : hasDefault dbx.categories u = false) :
    insertCategories dbx (starterCategories u base)
      = Except.ok { dbx with categories := dbx.categories ++ starterCategories u base } := by
  simp [starterCategories, insertCategories, insertCategory, h]

theorem insertCategories_starter_fails {dbx : DB} {u base : Nat}
    (h : hasDefault dbx.categories u = true) :
    insertCategories dbx (starterCategories u base)
      = Except.error DbError.constraintViolation := by
  simp [starterCategories, insertCategories, insertCategory, h]

/-- The state after the profile upsert inserted a row for `u`. -/
def profiledDB (db : DB) (u pid : Nat) : DB :=
  { db with profiles := db.profiles ++ [⟨pid, u, "USD", "$", 0⟩] }

/-- The state after full provisioning of `u` on `db`. -/
def provisionedDB (db : DB) (u pid base : Nat) : DB :=
  { db with
    profiles := db.profiles ++ [⟨pid, u, "USD", "$", 0⟩],
    categories := db.categories ++ starterCategories u base }

/-- C6: provisioning a fresh identity `u` (no profile row, no category
rows) creates exactly one profile for `u` (currency code USD, symbol "$")
and exactly one default category for `u`, named "General"; and running
provisioning again for `u` afterwards returns success with the database
unchanged — the profile upsert conflicts and does nothing, and the
starter-category batch insert is rejected whole by the unique-default
index (warning raised), so no duplicate rows of any kind appear. -/
theorem c6_provisioning_idempotent (db : DB) (u pid base : Nat)
    (hp : db.profiles.all (fun p => p.user_id != u) = true)
    (hc : db.categories.all (fun c => c.user_id != u) = true) :
    ∃ db1, handle_new_user db u pid base = Except.ok (db1, false, false) ∧
      (db1.profiles.filter (fun p => p.user_id == u)).length = 1 ∧
      (∀ p ∈ db1.profiles, p.user_id = u → p.currency_code = "USD" ∧ p.currency = "$") ∧
      (db1.categories.filter (fun c => c.user_id == u && c.is_default)).length = 1 ∧
      (∀ c ∈ db1.categories, c.user_id = u → c.is_default = true → c.name = "General") ∧
      (∀ pid2 base2, handle_new_user db1 u pid2 base2 = Except.ok (db1, false, true)) := by
  have hprof_any : db.profiles.any (fun p => p.user_id == u) = false := by
    rw [List.any_eq_false]
    intro p hpm
    have hne := List.all_eq_true.mp hp p hpm
    simpa using hne
  have hnodef : hasDefault db.categories u = false := by
    rw [hasDefault, List.any_eq_false]
    intro c hcm
    have hne := List.all_eq_true.mp hc c hcm
    have hne2 : c.user_id ≠ u := by simpa using hne
    simp only [Bool.and_eq_true, beq_iff_eq]
    rintro ⟨h1, _⟩
    exact hne2 h1
  have hstep1 : create_default_user_profile db u pid = (profiledDB db u pid, false) := by
    unfold create_default_user_profile profiledDB
    rw [hprof_any]
    simp
  have hstep2 : create_default_categories_for_user (profiledDB db u pid) u base
      = (provisionedDB db u pid base, false) := by
    unfold create_default_categories_for_user create_default_categories_body
    rw [insertCategories_starter
      (show hasDefault (profiledDB db u pid).categories u = false from hnodef)]
    rfl
  refine ⟨provisionedDB db u pid base, ?_, ?_, ?_, ?_, ?_, ?_⟩
  · unfold handle_new_user handle_new_user_body
    rw [hstep1]
    simp only []
    rw [hstep2]
  · have hnil : db.profiles.filter (fun p => p.user_id == u) = [] := by
      rw [List.filter_eq_nil_iff]
      intro p hpm
      have hne := List.all_eq_true.mp hp p hpm
      simpa using hne
    simp [provisionedDB, List.filter_append, hnil]
  · intro p hpm hpu
    simp only [provisionedDB] at hpm
    rcases List.mem_append.mp hpm with hin | hin
    · have hne := List.all_eq_true.mp hp p hin
      simp [hpu] at hne
    · rcases List.mem_singleton.mp hin with rfl
      exact ⟨rfl, rfl⟩
  · have hnil : db.categories.filter (fun c => c.user_id == u && c.is_default) = [] := by
      rw [List.filter_eq_nil_iff]
      intro c hcm
      have hne := List.all_eq_true.mp hc c hcm
      have hne2 : c.user_id ≠ u := by simpa using hne
      simp only [Bool.and_eq_true, beq_iff_eq]
      rintro ⟨h1, _⟩
      exact hne2 h1
    simp [provisionedDB, List.filter_append, hnil, starterCategories]
  · intro c hcm hcu hcd
    simp only [provisionedDB] at hcm
    rcases List.mem_append.mp hcm with hin | hin
    · have hne := List.all_eq_true.mp hc c hin
      simp [hcu] at hne
    · simp [starterCategories] at hin
      rcases hin with rfl | rfl | rfl | rfl | rfl | rfl | rfl | rfl <;> first | rfl | simp at hcd
  · intro pid2 base2
    have hany2 : (provisionedDB db u pid base).profiles.any
        (fun p => p.user_id == u) = true := by
      rw [List.any_eq_true]
      refine ⟨⟨pid, u, "USD", "$", 0⟩, ?_, ?_⟩
      · simp [provisionedDB]
      · simp
    have hdef2 : hasDefault (provisionedDB db u pid base).categories u = true := by
      rw [hasDefault, List.any_eq_true]
      refine ⟨⟨base, u, "General", "#6B7280", "folder", true, 0⟩, ?_, ?_⟩
      · simp [provisionedDB, starterCategories]
      · simp
    have hstep1' : create_default_user_profile (provisionedDB db u pid base) u pid2
        = (provisionedDB db u pid base, false) := by
      unfold create_default_user_profile
      rw [hany2]
      simp
    have hstep2' : create_default_categories_for_user (provisionedDB db u pid base) u base2
        = (provisionedDB db u pid base, true) := by
      unfold create_default_categories_for_user create_default_categories_body
      rw [insertCategories_starter_fails hdef2]
    unfold handle_new_user handle_new_user_body
    rw [hstep1']
    simp only []
    rw [hstep2']

/-- C6 witness: provisioning user 1 on the empty database. -/
theorem c6_witness :
    (DB.mk [] [] []).profiles.all (fun p => p.user_id != 1) = true ∧
    (DB.mk [] [] []).categories.all (fun c => c.user_id != 1) = true ∧
    (∃ db1, handle_new_user (DB.mk [] [] []) 1 100 10 = Except.ok (db1, false, false) ∧
      (db1.profiles.filter (fun p => p.user_id == 1)).length = 1 ∧
      (∀ p ∈ db1.profiles, p.user_id = 1 → p.currency_code = "USD" ∧ p.currency = "$") ∧
      (db1.categories.filter (fun c => c.user_id == 1 && c.is_default)).length = 1 ∧
      (∀ c ∈ db1.categories, c.user_id = 1 → c.is_default = true → c.name = "General") ∧
      (∀ pid2 base2, handle_new_user db1 1 pid2 base2 = Except.ok (db1, false, true))) :=
  ⟨by decide, by decide,
    c6_provisioning_idempotent (DB.mk [] [] []) 1 100 10 (by decide) (by decide)⟩

/-- C7: the new-user handler returns success for every input.  Each
provisioning step traps its own errors into a warning, and the outer
exception handler of `handle_new_user` maps any escaping error to success
as well, so identity creation is never blocked.  In particular, when the
starter-category insert raises (for instance because the owner already
has a default category), the handler still succeeds, reporting only the
category warning. -/
theorem c7_new_user_never_fails (db : DB) (u pid base : Nat) :
    (∃ r, handle_new_user db u pid base = Except.ok r) ∧
    (∀ e, create_default_categories_body (create_default_user_profile db u pid).1 u base
        = Except.error e →
      handle_new_user db u pid base =
        Except.ok ((create_default_user_profile db u pid).1,
                   (create_default_user_profile db u pid).2, true)) := by
  constructor
  · exact ⟨_, rfl⟩
  · intro e he
    have h2 : create_default_categories_for_user (create_default_user_profile db u pid).1 u base
        = ((create_default_user_profile db u pid).1, true) := by
      unfold create_default_categories_for_user
      rw [he]
    unfold handle_new_user handle_new_user_body
    simp only []
    rw [h2]

/-- C7 witness: on a database where user 1 already owns a default
category, the starter-category insert raises a constraint violation, yet
the new-user handler still returns success. -/
theorem c7_witness :
    create_default_categories_body (create_default_user_profile dbC1 1 100).1 1 10
        = Except.error DbError.constraintViolation ∧
    handle_new_user dbC1 1 100 10 =
      Except.ok ((create_default_user_profile dbC1 1 100).1,
                 (create_default_user_profile dbC1 1 100).2, true) :=
  ⟨by decide,
    (c7_new_user_never_fails dbC1 1 100 10).2 DbError.constraintViolation (by decide)⟩

/-! Claim C8: row-level security (migration lines 72-147).  All policies
compare `auth.uid()` — the verified identity of the caller, passed here as
`auth`, never taken from the client payload or filter — with the row's
`user_id`. -/

def user_profiles_select_policy (auth : Nat) (p : UserProfile) : Bool :=
  auth == p.user_id

def user_profiles_insert_policy (auth : Nat) (p : UserProfile) : Bool :=
  auth == p.user_id

def user_profiles_update_policy (auth : Nat) (p : UserProfile) : Bool :=
  auth == p.user_id

/-- No DELETE policy exists for `user_profiles` in the migration, so with
row-level security enabled the default is to deny every row. -/
def user_profiles_delete_policy (auth : Nat) (p : UserProfile) : Bool :=
  false

def categories_select_policy (auth : Nat) (c : Category) : Bool :=
  auth == c.user_id

def categories_insert_policy (auth : Nat) (c : Category) : Bool :=
  auth == c.user_id

def categories_update_policy (auth : Nat) (c : Category) : Bool :=
  auth == c.user_id

def expenses_select_policy (auth : Nat) (e : Expense) : Bool :=
  auth == e.user_id

def expenses_insert_policy (auth : Nat) (e : Expense) : Bool :=
  auth == e.user_id

def expenses_update_policy (auth : Nat) (e : Expense) : Bool :=
  auth == e.user_id

def expenses_delete_policy (auth : Nat) (e : Expense) : Bool :=
  auth == e.user_id

/-- A SELECT issued by the authenticated user `auth` with an arbitrary
client-side filter `filt` (possibly omitting any owner condition): the
storage layer intersects it with the table's USING policy. -/
def selectProfiles (db : DB) (auth : Nat) (filt : UserProfile → Bool) : List UserProfile :=
  db.profiles.filter (fun p => user_profiles_select_policy auth p && filt p)

def selectCategories (db : DB) (auth : Nat) (filt : Category → Bool) : List Category :=
  db.categories.filter (fun c => categories_select_policy auth c && filt c)

def selectExpenses (db : DB) (auth : Nat) (filt : Expense → Bool) : List Expense :=
  db.expenses.filter (fun e => expenses_select_policy auth e && filt e)

/-- An INSERT issued by the authenticated user: the WITH CHECK clause
rejects any row whose `user_id` is not the caller. -/
def insertProfileAsUser (db : DB) (auth : Nat) (p : UserProfile) : Except DbError DB :=
  if user_profiles_insert_policy auth p then
    .ok { db with profiles := db.profiles ++ [p] }
  else
    .error .rlsViolation

def insertCategoryAsUser (db : DB) (auth : Nat) (c : Category) : Except DbError DB :=
  if categories_insert_policy auth c then insertCategory db c
  else .error .rlsViolation

def insertExpenseAsUser (db : DB) (auth : Nat) (e : Expense) : Except DbError DB :=
  if expenses_insert_policy auth e then
    .ok { db with expenses := db.expenses ++ [e] }
  else
    .error .rlsViolation

/-- An UPDATE issued by the authenticated user: only rows passing both
the USING policy and the client filter are rewritten, and the WITH CHECK
clause requires every rewritten row to still belong to the caller. -/
def updateProfilesAsUser (db : DB) (auth : Nat) (filt : UserProfile → Bool)
    (f : UserProfile → UserProfile) : Except DbError DB :=
  if db.profiles.all (fun p =>
      !(user_profiles_update_policy auth p && filt p) || user_profiles_update_policy auth (f p))
  then
    .ok { db with profiles := db.profiles.map (fun p =>
      if user_profiles_update_policy auth p && filt p then f p else p) }
  else
    .error .rlsViolation

def updateCategoriesAsUser (db : DB) (auth : Nat) (filt : Category → Bool)
    (f : Category → Category) : Except DbError DB :=
  if db.categories.all (fun c =>
      !(categories_update_policy auth c && filt c) || categories_update_policy auth (f c))
  then
    .ok { db with categories := db.categories.map (fun c =>
      if categories_update_policy auth c && filt c then f c else c) }
  else
    .error .rlsViolation

def updateExpensesAsUser (db : DB) (auth : Nat) (filt : Expense → Bool)
    (f : Expense → Expense) : Except DbError DB :=
  if db.expenses.all (fun e =>
      !(expenses_update_policy auth e && filt e) || expenses_update_policy auth (f e))
  then
    .ok { db with expenses := db.expenses.map (fun e =>
      if expenses_update_policy auth e && filt e then f e else e) }
  else
    .error .rlsViolation

/-- A DELETE on `user_profiles` issued by the authenticated user: with no
DELETE policy, no row qualifies. -/
def deleteProfilesAsUser (db : DB) (auth : Nat) (filt : UserProfile → Bool) : DB :=
  { db with profiles := db.profiles.filter (fun p =>
      !(user_profiles_delete_policy auth p && filt p)) }

/-- The client's `deleteExpense` (useExpenses.ts lines 79-91) filters only
by expense id — it omits the owner filter entirely; `filt` stands for any
such client filter.  Rows qualify only through the DELETE policy. -/
def deleteExpensesAsUser (db : DB) (auth : Nat) (filt : Expense → Bool) : DB :=
  { db with expenses := db.expenses.filter (fun e =>
      !(expenses_delete_policy auth e && filt e)) }

/-- C8: for every caller, every stored row and every client-supplied
filter (including filters that omit the owner condition): reads return
only rows owned by the caller; inserts succeed only for rows whose
`user_id` is the caller's verified identity; updates leave every row of a
different owner unchanged; profile deletes remove nothing (no DELETE
policy), expense deletes keep every row of a different owner, and a
category delete only ever removes a row owned by the caller.  The
comparison key `auth` is the verified identity, never part of the
client-controlled `filt`. -/
theorem c8_owner_scoped_access (db : DB) (auth : Nat)
    (pf : UserProfile → Bool) (cf : Category → Bool) (ef : Expense → Bool)
    (p : UserProfile) (c : Category) (e : Expense)
    (fp : UserProfile → UserProfile) (fc : Category → Category) (fe : Expense → Expense)
    (cid : Nat)
    (hu : uniqueIds db.categories = true) :
    (∀ x ∈ selectProfiles db auth pf, x.user_id = auth) ∧
    (∀ x ∈ selectCategories db auth cf, x.user_id = auth) ∧
    (∀ x ∈ selectExpenses db auth ef, x.user_id = auth) ∧
    (∀ db1, insertProfileAsUser db auth p = Except.ok db1 → p.user_id = auth) ∧
    (∀ db1, insertCategoryAsUser db auth c = Except.ok db1 → c.user_id = auth) ∧
    (∀ db1, insertExpenseAsUser db auth e = Except.ok db1 → e.user_id = auth) ∧
    (∀ db1, updateProfilesAsUser db auth pf fp = Except.ok db1 →
      ∀ x ∈ db.profiles, x.user_id ≠ auth → x ∈ db1.profiles) ∧
    (∀ db1, updateCategoriesAsUser db auth cf fc = Except.ok db1 →
      ∀ x ∈ db.categories, x.user_id ≠ auth → x ∈ db1.categories) ∧
    (∀ db1, updateExpensesAsUser db auth ef fe = Except.ok db1 →
      ∀ x ∈ db.expenses, x.user_id ≠ auth → x ∈ db1.expenses) ∧
    (deleteProfilesAsUser db auth pf = db) ∧
    (∀ x ∈ db.expenses, x.user_id ≠ auth → x ∈ (deleteExpensesAsUser db auth ef).expenses) ∧
    (∀ db1, deleteCategoryAsUser db auth cid = Except.ok db1 →
      ∀ x ∈ db.categories, x ∉ db1.categories → x.user_id = auth) := by
  refine ⟨?_, ?_, ?_, ?_, ?_, ?_, ?_, ?_, ?_, ?_, ?_, ?_⟩
  · intro x hx
    have hp2 := (List.mem_filter.mp hx).2
    simp only [user_profiles_select_policy, Bool.and_eq_true, beq_iff_eq] at hp2
    exact hp2.1.symm
  · intro x hx
    have hp2 := (List.mem_filter.mp hx).2
    simp only [categories_select_policy, Bool.and_eq_true, beq_iff_eq] at hp2
    exact hp2.1.symm
  · intro x hx
    have hp2 := (List.mem_filter.mp hx).2
    simp only [expenses_select_policy, Bool.and_eq_true, beq_iff_eq] at hp2
    exact hp2.1.symm
  · intro db1 h
    unfold insertProfileAsUser at h
    split at h
    · rename_i hcond
      simp only [user_profiles_insert_policy, beq_iff_eq] at hcond
      exact hcond.symm
    · exact absurd h (by simp)
  · intro db1 h
    unfold insertCategoryAsUser at h
    split at h
    · rename_i hcond
      simp only [categories_insert_policy, beq_iff_eq] at hcond
      exact hcond.symm
    · exact absurd h (by simp)
  · intro db1 h
    unfold insertExpenseAsUser at h
    split at h
    · rename_i hcond
      simp only [expenses_insert_policy, beq_iff_eq] at hcond
      exact hcond.symm
    · exact absurd h (by simp)
  · intro db1 h
    unfold updateProfilesAsUser at h
    split at h
    · simp only [Except.ok.injEq] at h
      rw [← h]
      intro x hx hne
      have hpol : user_profiles_update_policy auth x = false := by
        simp only [user_profiles_update_policy, beq_eq_false_iff_ne]
        exact hne.symm
      have hcond : (user_profiles_update_policy auth x && pf x) = false := by
        simp [hpol]
      have : (if user_profiles_update_policy auth x && pf x then fp x else x) = x := by
        rw [hcond]
        simp
      rw [← this]
      exact List.mem_map_of_mem _ hx
    · exact absurd h (by simp)
  · intro db1 h
    unfold updateCategoriesAsUser at h
    split at h
    · simp only [Except.ok.injEq] at h
      rw [← h]
      intro x hx hne
      have hpol : categories_update_policy auth x = false := by
        simp only [categories_update_policy, beq_eq_false_iff_ne]
        exact hne.symm
      have hcond : (categories_update_policy auth x && cf x) = false := by
        simp [hpol]
      have : (if categories_update_policy auth x && cf x then fc x else x) = x := by
        rw [hcond]
        simp
      rw [← this]
      exact List.mem_map_of_mem _ hx
    · exact absurd h (by simp)
  · intro db1 h
    unfold updateExpensesAsUser at h
    split at h
    · simp only [Except.ok.injEq] at h
      rw [← h]
      intro x hx hne
      have hpol : expenses_update_policy auth x = false := by
        simp only [expenses_update_policy, beq_eq_false_iff_ne]
        exact hne.symm
      have hcond : (expenses_update_policy auth x && ef x) = false := by
        simp [hpol]
      have : (if expenses_update_policy auth x && ef x then fe x else x) = x := by
        rw [hcond]
        simp
      rw [← this]
      exact List.mem_map_of_mem _ hx
    · exact absurd h (by simp)
  · unfold deleteProfilesAsUser
    have : db.profiles.filter (fun p =>
        !(user_profiles_delete_policy auth p && pf p)) = db.profiles := by
      apply List.filter_eq_self.mpr
      intro a _
      simp [user_profiles_delete_policy]
    rw [this]
  · intro x hx hne
    unfold deleteExpensesAsUser
    apply List.mem_filter.mpr
    refine ⟨hx, ?_⟩
    have hpol : expenses_delete_policy auth x = false := by
      simp only [expenses_delete_policy, beq_eq_false_iff_ne]
      exact hne.symm
    simp [hpol]
  · intro db1 h
    unfold deleteCategoryAsUser at h
    cases hf : db.categories.find?
        (fun x => x.id == cid && x.user_id == auth && categories_delete_policy auth x) with
    | none =>
        rw [hf] at h
        simp only [Except.ok.injEq] at h
        intro x hx hnx
        rw [← h] at hnx
        exact absurd hx hnx
    | some old =>
        rw [hf] at h
        have hold_mem : old ∈ db.categories := List.mem_of_find?_eq_some hf
        have hold_p := List.find?_some hf
        simp only [Bool.and_eq_true, beq_iff_eq] at hold_p
        have hold_user : old.user_id = auth := by tauto
        intro x hx hnx
        have hcats := deleteFoundCategory_ok_categories h
        by_cases hxid : x.id = old.id
        · rw [← uniqueIds_mem_eq hu hx hold_mem hxid] at hold_user
          exact hold_user
        · exfalso
          apply hnx
          rw [hcats]
          apply List.mem_filter.mpr
          exact ⟨hx, by simpa using hxid⟩

/-- C8 witness: the access-control theorem applied to the concrete
two-category database, caller 1, with client filters that omit any owner
condition. -/
theorem c8_witness :
    uniqueIds dbC2.categories = true ∧
    ((∀ x ∈ selectExpenses dbC2 1 (fun _ => true), x.user_id = 1) ∧
      (∀ x ∈ dbC2.expenses, x.user_id ≠ 1 →
        x ∈ (deleteExpensesAsUser dbC2 1 (fun _ => true)).expenses)) :=
  ⟨by decide,
    ⟨(c8_owner_scoped_access dbC2 1 (fun _ => true) (fun _ => true) (fun _ => true)
        ⟨0, 1, "USD", "$", 0⟩ genC2 expC2 id id id 2 (by decide)).2.2.1,
      (c8_owner_scoped_access dbC2 1 (fun _ => true) (fun _ => true) (fun _ => true)
        ⟨0, 1, "USD", "$", 0⟩ genC2 expC2 id id id 2 (by decide)).2.2.2.2.2.2.2.2.2.2.1⟩⟩

/-! Claim C9: aggregation (PieChart.tsx lines 404-477, App.tsx,
ExpenseSummary.tsx). -/

/-- One chart segment (PieChart.tsx `ChartData`). -/
structure ChartData where
  category : Category
  amount : ℚ
  percentage : ℚ
deriving DecidableEq, Repr

/-- `expense.date.startsWith(month)`: a string starts with the month key;
strings are compared through their character lists. -/
def dateInMonth (month date : String) : Bool :=
  month.data.isPrefixOf date.data

/-- The month bucket total:
`expenses.filter(e => e.date.startsWith(month)).reduce((s, e) => s + e.amount, 0)`
(App.tsx `thisMonthExpenses`, ExpenseSummary.tsx `totalAmount`). -/
def monthTotal (expenses : List Expense) (month : String) : ℚ :=
  (expenses.filter (fun e => dateInMonth month e.date)).foldl (fun s e => s + e.amount) 0

/-- The per-category sum of a category's expenses
(PieChart.tsx lines 424-427). -/
def categoryAmount (expenses : List Expense) (c : Category) : ℚ :=
  (expenses.filter (fun e => e.category_id == c.id)).foldl (fun s e => s + e.amount) 0

/-- `categories.map(...).filter(d => d.amount > 0)` (lines 423-429);
percentages start at 0 as in the source. -/
def chartDataFor (categories : List Category) (expenses : List Expense) : List ChartData :=
  (categories.map (fun c => ⟨c, categoryAmount expenses c, 0⟩)).filter
    (fun d => 0 < d.amount)

/-- `total = chartData.reduce((sum, d) => sum + d.amount, 0)` (line 431). -/
def chartTotal (l : List ChartData) : ℚ :=
  l.foldl (fun s d => s + d.amount) 0

/-- `chartData.forEach(d => d.percentage = (d.amount / total) * 100)`
(lines 434-436). -/
def withPercentages (l : List ChartData) : List ChartData :=
  l.map (fun d => { d with percentage := d.amount / chartTotal l * 100 })

/-- `chartData.sort((a, b) => b.amount - a.amount)` (line 439): a stable
comparison sort by descending amount. -/
def sortByAmountDesc (l : List ChartData) : List ChartData :=
  List.insertionSort (fun a b => b.amount ≤ a.amount) l

instance : IsTotal ChartData (fun a b => b.amount ≤ a.amount) :=
  ⟨fun a b => le_total b.amount a.amount⟩

instance : IsTrans ChartData (fun a b => b.amount ≤ a.amount) :=
  ⟨fun _ _ _ h1 h2 => le_trans h2 h1⟩

theorem foldl_add_eq_sum {α : Type} (f : α → ℚ) (l : List α) (a : ℚ) :
    l.foldl (fun s x => s + f x) a = a + (l.map f).sum := by
  induction l generalizing a with
  | nil => simp
  | cons x xs ih => simp [ih, add_assoc]

theorem sum_map_amount_mul (l : List ChartData) (k : ℚ) :
    (l.map (fun d => d.amount * k)).sum = (l.map (fun d => d.amount)).sum * k := by
  induction l with
  | nil => simp
  | cons x xs ih => simp [ih, add_mul]

/-- The three expenses of the spec's aggregation scenario: $10 in month 1
and $20, $30 in month 2. -/
def esC9 : List Expense :=
  [⟨1, 1, 1, 10, "a", "2024-01-15"⟩,
   ⟨2, 1, 1, 20, "b", "2024-02-03"⟩,
   ⟨3, 1, 1, 30, "c", "2024-02-20"⟩]

/-- C9: aggregation is a pure transformation.  On the scenario expenses
the month buckets total 10 and 50; for every non-empty expense list whose
amounts are positive (the CHECK constraint) and whose category references
resolve, the percentage shares sum to exactly 100 (rationals, so within
any floating-point tolerance); and the chart sort orders segments by
descending amount. -/
theorem c9_aggregation_pure :
    (monthTotal esC9 "2024-01" = 10 ∧ monthTotal esC9 "2024-02" = 50) ∧
    (∀ (categories : List Category) (expenses : List Expense), expenses ≠ [] →
      (∀ e ∈ expenses, 0 < e.amount) →
      (∀ e ∈ expenses, ∃ c ∈ categories, c.id = e.category_id) →
      ((withPercentages (chartDataFor categories expenses)).map
          (fun d => d.percentage)).sum = 100) ∧
    (∀ l : List ChartData,
      List.Sorted (fun a b => b.amount ≤ a.amount) (sortByAmountDesc l)) := by
  refine ⟨⟨?_, ?_⟩, ?_, ?_⟩
  · rw [monthTotal, show esC9.filter (fun e => dateInMonth "2024-01" e.date)
        = [⟨1, 1, 1, 10, "a", "2024-01-15"⟩] from by decide]
    norm_num [List.foldl]
  · rw [monthTotal, show esC9.filter (fun e => dateInMonth "2024-02" e.date)
        = [⟨2, 1, 1, 20, "b", "2024-02-03"⟩, ⟨3, 1, 1, 30, "c", "2024-02-20"⟩] from by decide]
    norm_num [List.foldl]
  · intro categories expenses hne hpos href
    obtain ⟨e0, he0⟩ := List.exists_mem_of_ne_nil expenses hne
    obtain ⟨c0, hc0mem, hc0id⟩ := href e0 he0
    have hamt0 : 0 < categoryAmount expenses c0 := by
      rw [categoryAmount, foldl_add_eq_sum, zero_add]
      apply List.sum_pos
      · intro a ha
        obtain ⟨x, hx, rfl⟩ := List.mem_map.mp ha
        exact hpos x (List.mem_filter.mp hx).1
      · have he0f : e0 ∈ expenses.filter (fun e => e.category_id == c0.id) := by
          apply List.mem_filter.mpr
          exact ⟨he0, by simp [hc0id]⟩
        exact List.ne_nil_of_mem (List.mem_map_of_mem _ he0f)
    have hLmem : (⟨c0, categoryAmount expenses c0, 0⟩ : ChartData)
        ∈ chartDataFor categories expenses := by
      apply List.mem_filter.mpr
      refine ⟨List.mem_map_of_mem _ hc0mem, ?_⟩
      simpa using hamt0
    have hLpos : ∀ d ∈ chartDataFor categories expenses, 0 < d.amount := by
      intro d hd
      have := (List.mem_filter.mp hd).2
      simpa using this
    have htot : chartTotal (chartDataFor categories expenses)
        = ((chartDataFor categories expenses).map (fun d => d.amount)).sum := by
      rw [chartTotal, foldl_add_eq_sum, zero_add]
    have htpos : 0 < chartTotal (chartDataFor categories expenses) := by
      rw [htot]
      apply List.sum_pos
      · intro a ha
        obtain ⟨d, hd, rfl⟩ := List.mem_map.mp ha
        exact hLpos d hd
      · exact List.ne_nil_of_mem (List.mem_map_of_mem _ hLmem)
    have hmapeq : (withPercentages (chartDataFor categories expenses)).map
        (fun d => d.percentage)
        = (chartDataFor categories expenses).map
            (fun d => d.amount * (100 / chartTotal (chartDataFor categories expenses))) := by
      rw [withPercentages, List.map_map]
      apply List.map_congr_left
      intro d _
      show d.amount / chartTotal (chartDataFor categories expenses) * 100 = _
      ring
    rw [hmapeq, sum_map_amount_mul, ← htot]
    field_simp
  · intro l
    exact List.sorted_insertionSort _ l

/-- C9 witness: the percentage-sum identity applied to the scenario
expenses against a single-category list. -/
theorem c9_witness :
    esC9 ≠ [] ∧
    (∀ e ∈ esC9, 0 < e.amount) ∧
    (∀ e ∈ esC9, ∃ c ∈ [genC2], c.id = e.category_id) ∧
    ((withPercentages (chartDataFor [genC2] esC9)).map (fun d => d.percentage)).sum = 100 :=
  ⟨by decide, by decide, by decide,
    (c9_aggregation_pure.2.1) [genC2] esC9 (by decide) (by decide) (by decide)⟩

/-! Claim C10: the client category operations
(useCategories.ts lines 73-112). -/

/-- The client payload of `addCategory`:
`Omit<Category, 'id' | 'user_id' | 'created_at' | 'is_default'>`. -/
structure CategoryInput where
  name : String
  color : String
  icon : String
deriving DecidableEq, Repr

/-- The row `addCategory` inserts (lines 77-85): the payload spread plus
`user_id: user.id` from the session and a hard-coded
`is_default: false`; `id` and `created_at` are storage-generated. -/
def addCategoryRow (auth cid createdAt : Nat) (input : CategoryInput) : Category :=
  ⟨cid, auth, input.name, input.color, input.icon, false, createdAt⟩

/-- The client payload of `updateCategory`:
`{ name?: string; color?: string }`. -/
structure CategoryUpdates where
  name : Option String
  color : Option String
deriving DecidableEq, Repr

/-- Applying the update payload to a row: only `name` and `color` can be
set. -/
def applyCategoryUpdates (upd : CategoryUpdates) (c : Category) : Category :=
  { c with name := upd.name.getD c.name, color := upd.color.getD c.color }

/-- The client's `updateCategory` (lines 94-112):
`UPDATE categories SET <name/color> WHERE id = cid AND user_id = auth`,
filtered by the update policy. -/
def updateCategoryClient (db : DB) (auth cid : Nat) (upd : CategoryUpdates) : DB :=
  { db with categories := db.categories.map (fun c =>
      if c.id == cid && c.user_id == auth && categories_update_policy auth c
      then applyCategoryUpdates upd c else c) }

/-- C10: no client category operation creates or moves the default flag.
The row `addCategory` inserts always carries `is_default = false` and the
session's user id, whatever the payload; and `updateCategory` only ever
sends `name` and `color`, so every stored row's image under the client
update keeps its `id`, `is_default`, `icon`, `user_id` and `created_at`. -/
theorem c10_client_cannot_touch_default (auth cid createdAt : Nat)
    (input : CategoryInput) (db : DB) (upd : CategoryUpdates) :
    (addCategoryRow auth cid createdAt input).is_default = false ∧
    (addCategoryRow auth cid createdAt input).user_id = auth ∧
    (∀ c ∈ db.categories, ∃ c' ∈ (updateCategoryClient db auth cid upd).categories,
      c'.id = c.id ∧ c'.is_default = c.is_default ∧ c'.icon = c.icon ∧
      c'.user_id = c.user_id ∧ c'.created_at = c.created_at) := by
  refine ⟨rfl, rfl, ?_⟩
  intro c hc
  refine ⟨(if c.id == cid && c.user_id == auth && categories_update_policy auth c
      then applyCategoryUpdates upd c else c), List.mem_map_of_mem _ hc, ?_⟩
  by_cases hcond : (c.id == cid && c.user_id == auth && categories_update_policy auth c) = true
  · rw [if_pos hcond]
    exact ⟨rfl, rfl, rfl, rfl, rfl⟩
  · rw [if_neg hcond]
    exact ⟨rfl, rfl, rfl, rfl, rfl⟩

/-- C10 witness: a concrete insert payload yields a non-default row, and
renaming user 1's default category leaves its flag, icon, owner and
timestamp untouched. -/
theorem c10_witness :
    (addCategoryRow 1 5 0 ⟨"Trips", "#123456", "plane"⟩).is_default = false ∧
    genC2 ∈ dbC2.categories ∧
    (∃ c' ∈ (updateCategoryClient dbC2 1 1 ⟨some "Renamed", none⟩).categories,
      c'.id = genC2.id ∧ c'.is_default = genC2.is_default ∧ c'.icon = genC2.icon ∧
      c'.user_id = genC2.user_id ∧ c'.created_at = genC2.created_at) :=
  ⟨(c10_client_cannot_touch_default 1 5 0 ⟨"Trips", "#123456", "plane"⟩ dbC2
      ⟨some "Renamed", none⟩).1,
   by decide,
   (c10_client_cannot_touch_default 1 1 0 ⟨"Trips", "#123456", "plane"⟩ dbC2
      ⟨some "Renamed", none⟩).2.2 genC2 (by decide)⟩

end Monetrax
